import Mathlib

set_option maxHeartbeats 4000000
set_option maxRecDepth 8000

/-!
Shallow embedding of the IKEA assembler core (src/ikeaAssemble.py).

Conventions of the embedding:
* Python `str` is Lean `String`; Python `int` is Lean `Int` (or `Nat` where the
  Python value is provably nonnegative).
* Python `dict` is an association list updated in insertion order, exactly as
  CPython preserves insertion order.
* A Python statement that can raise is modelled in `Except String`, the error
  string naming the Python exception class raised at that point.
* The mutable `RAMROM_dict` object is passed as explicit state.  `write_bytes`
  returns the state reached when the call finishes or raises, so that
  mutations performed before a raise stay observable (CPython mutates the
  object in place, then propagates the exception).
-/

deriving instance DecidableEq for Except

/-- Digit character for a value below 16, as produced by Python numeric
formatting: `0`-`9` then lowercase `a`-`f`. -/
def natDigit (n : Nat) : Char :=
  if n < 10 then Char.ofNat (48 + n) else Char.ofNat (87 + n)

/-- Base-`base` digit characters of a natural number, most significant first,
with explicit fuel so that the definition is structurally recursive (any fuel
above the number itself is enough, see `digitsCore_fuel`). -/
def digitsCore (base : Nat) : Nat → Nat → List Char
  | 0, _ => []
  | fuel + 1, n =>
    if n < base then [natDigit n] else digitsCore base fuel (n / base) ++ [natDigit (n % base)]

/-- Decimal digits of a natural number, most significant first; the model of
Python `str(n)` for a nonnegative int. -/
def decChars (n : Nat) : List Char := digitsCore 10 (n + 1) n

/-- Binary digits of a natural number, most significant first (Python
`format(n, 'b')` for nonnegative `n`). -/
def binChars (n : Nat) : List Char := digitsCore 2 (n + 1) n

/-- Hexadecimal digits of a natural number, most significant first (Python
`format(n, 'x')` for nonnegative `n`). -/
def hexChars (n : Nat) : List Char := digitsCore 16 (n + 1) n

/-- Python `format(v, '0Wb')`: binary rendering of an int, zero-padded to
total width `w`; a negative value is rendered as a sign followed by the
magnitude zero-padded to width `w - 1`. -/
def pyFormatB (w : Nat) (v : Int) : String :=
  if v < 0 then
    String.mk ('-' :: (List.replicate (w - 1 - (binChars v.natAbs).length) '0' ++ binChars v.natAbs))
  else
    String.mk (List.replicate (w - (binChars v.toNat).length) '0' ++ binChars v.toNat)

/-- Python `format(v, '0Wx')`: hexadecimal rendering of an int, zero-padded to
total width `w`, sign-aware exactly like `pyFormatB`. -/
def pyFormatX (w : Nat) (v : Int) : String :=
  if v < 0 then
    String.mk ('-' :: (List.replicate (w - 1 - (hexChars v.natAbs).length) '0' ++ hexChars v.natAbs))
  else
    String.mk (List.replicate (w - (hexChars v.toNat).length) '0' ++ hexChars v.toNat)

/-- Value of a decimal digit string, most significant first. -/
def digitsVal (l : List Char) : Nat :=
  l.foldl (fun a c => 10 * a + (c.toNat - 48)) 0

/-- Model of Python `int(s)` restricted to the shapes this program feeds it:
an optional leading minus sign followed by decimal digits.  (CPython also
strips surrounding whitespace and accepts `+` and `_` separators; no input of
this assembler uses those.)  Returns `none` where `int(s)` raises ValueError. -/
def pyInt? (s : String) : Option Int :=
  match s.data with
  | [] => none
  | c :: rest =>
    if c = '-' then
      if rest ≠ [] ∧ rest.all Char.isDigit then some (-(digitsVal rest : Int)) else none
    else if (c :: rest).all Char.isDigit then some ((digitsVal (c :: rest) : Int)) else none

/-- Python `item.replace("X", "")`: drop every `X` character. -/
def stripX (s : String) : String :=
  String.mk (s.data.filter (fun c => c ≠ 'X'))

/-- Python `str(n)` for a nonnegative int. -/
def pyStrNat (n : Nat) : String := String.mk (decChars n)

/-- Python `str(v)` for an int of either sign. -/
def pyStrInt (v : Int) : String :=
  if v < 0 then String.mk ('-' :: decChars v.natAbs) else String.mk (decChars v.toNat)

/-- `ikeaAssemble.convert_8_bit_bin`: strip `X`, parse as int, add `2 ** 8` to
a negative value, format as `'08b'`. -/
def convert_8_bit_bin (item : String) : Except String String :=
  match pyInt? (stripX item) with
  | none => .error "ValueError"
  | some n => .ok (pyFormatB 8 (if n < 0 then n + 2 ^ 8 else n))

/-- `ikeaAssemble.convert_nibble_hex`: strip `X`, parse as int, assert the
value lies in `[0, 16)`, format as `'x'`. -/
def convert_nibble_hex (item : String) : Except String String :=
  match pyInt? (stripX item) with
  | none => .error "ValueError"
  | some n =>
    if n < 16 ∧ 0 ≤ n then .ok (String.mk (hexChars n.toNat)) else .error "AssertionError"

/-- `ikeaAssemble.convert_8_byte_hex`: strip `X`, parse as int, add `2 ** 64`
to a negative value, format as `'016x'`. -/
def convert_8_byte_hex (item : String) : Except String String :=
  match pyInt? (stripX item) with
  | none => .error "ValueError"
  | some n => .ok (pyFormatX 16 (if n < 0 then n + 2 ^ 64 else n))

/-- `ikeaAssemble.convert_1_byte_hex`: strip `X`, parse as int, add `2 ** 8`
to a negative value, format as `'02x'`.  Note the Python function performs no
range check of its own. -/
def convert_1_byte_hex (item : String) : Except String String :=
  match pyInt? (stripX item) with
  | none => .error "ValueError"
  | some n => .ok (pyFormatX 2 (if n < 0 then n + 2 ^ 8 else n))

/-- The state of `ikeaAssemble.RAMROM_dict`: the row-keyed image dictionary
and the `current_loc` cursor (row key, index within the row). -/
structure RAMROM_dict where
  image_file : List (String × List String)
  current_loc : String × Nat
deriving DecidableEq, Repr

/-- `self.keys`: the row keys of the image dictionary, in insertion order. -/
def RAMROM_keys : List String :=
  ["00", "10", "20", "30", "40", "50", "60", "70",
   "80", "90", "a0", "b0", "c0", "d0", "e0", "f0"]

/-- `RAMROM_dict.__init__`: sixteen rows of sixteen `"00"` cells, cursor at
`("00", 0)`. -/
def RAMROM_init : RAMROM_dict :=
  { image_file := RAMROM_keys.map (fun k => (k, List.replicate 16 "00")),
    current_loc := ("00", 0) }

/-- Python `self.image_file[key]` (the key is always present in this program;
a missing key yields the empty row). -/
def dictGet (d : List (String × List String)) (k : String) : List String :=
  match d with
  | [] => []
  | p :: rest => if p.1 = k then p.2 else dictGet rest k

/-- Replace the row stored under `k` (model of assigning through
`self.image_file[key][idx] = v` after the row list was updated). -/
def dictSet (d : List (String × List String)) (k : String) (row : List String) :
    List (String × List String) :=
  match d with
  | [] => []
  | p :: rest => if p.1 = k then (k, row) :: rest else p :: dictSet rest k row

/-- Python dict lookup `d[k]` on a string-valued dict, as an `Option`. -/
def pyLookup (d : List (String × String)) (k : String) : Option String :=
  match d with
  | [] => none
  | p :: rest => if p.1 = k then some p.2 else pyLookup rest k

/-- Python dict assignment `d[k] = v`: replace the value of an existing key in
place, otherwise append the new pair (CPython keeps insertion order). -/
def pyDictSet (d : List (String × String)) (k v : String) : List (String × String) :=
  match d with
  | [] => [(k, v)]
  | p :: rest => if p.1 = k then (k, v) :: rest else p :: pyDictSet rest k v

/-- Python list cell assignment `row[i] = v`; raises IndexError out of
bounds. -/
def setCell (row : List String) (i : Nat) (v : String) : Except String (List String) :=
  if i < row.length then .ok (row.set i v) else .error "IndexError"

/-- Worker for `pySplit`: accumulates the current field in reverse. -/
def pySplitAux (sep : Char) : List Char → List Char → List String
  | [], acc => [String.mk acc.reverse]
  | c :: rest, acc =>
    if c = sep then String.mk acc.reverse :: pySplitAux sep rest []
    else pySplitAux sep rest (c :: acc)

/-- Python `s.split(sep)` for a one-character separator: `"a,b"` gives
`["a", "b"]`, `""` gives `[""]`, `"a,"` gives `["a", ""]`. -/
def pySplit (sep : Char) (l : List Char) : List String :=
  pySplitAux sep l []

/-- Python string slice `s[a:b]` for `a ≤ b`. -/
def pySliceStr (s : String) (a b : Nat) : String :=
  String.mk ((s.data.drop a).take (b - a))

/-- The cell-assignment loop of `write_bytes`:
`for i in range(byte_size - 1, -1, -1): row[current_idx + i] = to_write[2*i : 2*i + 2]`.
The argument counts the iterations still to run, so `writeCellsDesc tw idx row k`
starts at `i = k - 1` exactly like the Python loop. -/
def writeCellsDesc (to_write : String) (current_idx : Nat) :
    List String → Nat → Except String (List String)
  | row, 0 => .ok row
  | row, i + 1 =>
    match setCell row (current_idx + i) (pySliceStr to_write (2 * i) (2 * i + 2)) with
    | .error e => .error e
    | .ok row2 => writeCellsDesc to_write current_idx row2 i

/-- `RAMROM_dict.__update_current_loc`: raise MemoryError at
`("f0", 16 - byte_size)`, otherwise advance the index inside the row or move
to the next row key. -/
def update_current_loc (s : RAMROM_dict) (byte_size : Nat) : Except String RAMROM_dict :=
  let MAX_BYTE_IN_ROW := 16 - byte_size
  if s.current_loc = ("f0", 16 - byte_size) then
    .error "MemoryError"
  else
    let current_key := s.current_loc.1
    let current_idx := s.current_loc.2
    if current_idx ≠ MAX_BYTE_IN_ROW then
      .ok { s with current_loc := (current_key, current_idx + byte_size) }
    else
      match RAMROM_keys.findIdx? (fun k => k = current_key) with
      | none => .error "ValueError"
      | some i =>
        if h : i + 1 < RAMROM_keys.length then
          .ok { s with current_loc := (RAMROM_keys.get ⟨i + 1, h⟩, 0) }
        else
          .error "IndexError"

/-- Value of a hexadecimal digit character (`0`-`9`, lowercase `a`-`f`). -/
def hexDigitVal (c : Char) : Nat :=
  if c.isDigit then c.toNat - 48 else c.toNat - 87

/-- Python `int(s, 16)` on the well-formed hex strings this program builds. -/
def hexToNat (s : String) : Nat :=
  s.data.foldl (fun a c => 16 * a + hexDigitVal c) 0

/-- `RAMROM_dict.write_bytes`: assert the hex string has `2 * byte_size`
characters, store the `i`-th character pair in the cell `current_idx + i` (the
Python loop runs `i` downward, so an out-of-bounds index fails on the very
first iteration, before any cell changes), rebuild the address of the first
byte, then advance the cursor.  The state component of the result is the
object state when the call returns or raises; the raise in
`__update_current_loc` happens after the cells were already stored. -/
def write_bytes (s : RAMROM_dict) (to_write : String) (byte_size : Nat) :
    RAMROM_dict × Except String String :=
  if to_write.length ≠ byte_size * 2 then (s, .error "AssertionError")
  else
    let current_key := s.current_loc.1
    let current_idx := s.current_loc.2
    match writeCellsDesc to_write current_idx (dictGet s.image_file current_key) byte_size with
    | .error e => (s, .error e)
    | .ok row2 =>
      let s2 : RAMROM_dict := { s with image_file := dictSet s.image_file current_key row2 }
      match convert_nibble_hex (pyStrNat current_idx) with
      | .error e => (s2, .error e)
      | .ok nib =>
        let memory_address := String.mk (current_key.data.take 1 ++ nib.data)
        match update_current_loc s2 byte_size with
        | .error e => (s2, .error e)
        | .ok s3 => (s3, .ok (pyFormatB 8 (hexToNat memory_address)))

/-- `RAMROM_dict.mem_addr_preview`: predicted ROM address of the instruction
at zero-based position `instruction_num`, computed as
`convert_8_bit_bin(str(instruction_num * 8))`.  The method reads nothing from
`self`; the state argument mirrors the Python receiver. -/
def mem_addr_preview (s : RAMROM_dict) (instruction_num : Nat) : Except String String :=
  convert_8_bit_bin (pyStrNat (instruction_num * 8))

/-- `re.search(r"^\w+:", s)`: the anchored match succeeds exactly when the
maximal leading run of word characters is nonempty and is followed by a colon;
`match.group()` is that run together with the colon.  (`\w` on these ASCII
inputs is a letter, digit or underscore.) -/
def label_regexp_search (s : String) : Option String :=
  let w := s.data.takeWhile (fun c => c.isAlphanum || c = '_')
  match s.data.drop w.length with
  | ':' :: _ => if w = [] then none else some (String.mk (w ++ [':']))
  | _ => none

/-- The per-row iteration of `generate_label_lookup`, carrying the running
index `i` and the accumulated dictionary. -/
def generate_label_lookup_aux (rom : RAMROM_dict) :
    List String → Nat → List (String × String) → Except String (List (String × String))
  | [], _, acc => .ok acc
  | ins :: rest, i, acc =>
    match label_regexp_search ins with
    | some g =>
      match mem_addr_preview rom i with
      | .error e => .error e
      | .ok addr => generate_label_lookup_aux rom rest (i + 1) (pyDictSet acc g addr)
    | none => generate_label_lookup_aux rom rest (i + 1) acc

/-- `ikeaAssemble.generate_label_lookup`: scan the instruction list once and
record, for every line whose head matches `^\w+:`, the predicted memory slot
`rom_dict.mem_addr_preview(i)` under the matched group. -/
def generate_label_lookup (instructions : List String) (rom_dict : RAMROM_dict) :
    Except String (List (String × String)) :=
  generate_label_lookup_aux rom_dict instructions 0 []

/-- `ikeaAssemble.INSTRUCTION_CODES`. -/
def INSTRUCTION_CODES : List (String × String) :=
  [("ADD", "0000100000000000100000001000000000000000"),
   ("ADD_SETFLAG", "1000100000000000100000000100000000000000"),
   ("SUB", "0000100000000000010000000010000000000000"),
   ("SUB_SETFLAG", "1000100000000000010000000001000000000000"),
   ("AND", "0000100000000000001000000000100000000000"),
   ("OR", "0000100000000000000100000000010000000000"),
   ("LOAD", "0100010000000000100000000000001000000000"),
   ("STORE", "0101000001000000100000000000000100000000"),
   ("ADDRESS", "0100100000000000000001000000000000000001"),
   ("SET", "0000100000000000000001000000000010000000"),
   ("SET::IMM", "0100100000000000000001000000000001000000"),
   ("BRANCH", "0100000100000000000010000000000000100000"),
   ("BRANCH_LINK", "0100000100000000000010000000000000010000"),
   ("BRANCH_IF_ZERO", "0100001000000000000000100000000000001000"),
   ("BRANCH_IF_NOT_ZERO", "0100001000000000000000100000000000000100"),
   ("RETURN", "0000000010000000000001000000000000000010")]

/-- `ikeaAssemble.CAT1`. -/
def CAT1 : List String := ["ADD", "ADD_SETFLAG", "SUB", "SUB_SETFLAG", "AND", "OR"]

/-- `ikeaAssemble.CAT2`. -/
def CAT2 : List String := ["LOAD"]

/-- `ikeaAssemble.CAT3`. -/
def CAT3 : List String := ["ADDRESS"]

/-- `ikeaAssemble.CAT4`. -/
def CAT4 : List String := ["STORE"]

/-- `ikeaAssemble.CAT5`. -/
def CAT5 : List String := ["SET"]

/-- `ikeaAssemble.CAT6`. -/
def CAT6 : List String := ["SET::IMM"]

/-- `ikeaAssemble.CAT7`. -/
def CAT7 : List String := ["BRANCH", "BRANCH_LINK"]

/-- `ikeaAssemble.CAT8`. -/
def CAT8 : List String := ["BRANCH_IF_ZERO", "BRANCH_IF_NOT_ZERO"]

/-- `ikeaAssemble.CAT9`. -/
def CAT9 : List String := ["RETURN"]

/-- Python list indexing `l[i]`; raises IndexError out of bounds. -/
def listIndex (l : List String) (i : Nat) : Except String String :=
  if h : i < l.length then .ok (l.get ⟨i, h⟩) else .error "IndexError"

/-- `ikeaAssemble.generate_binary`.  Faithful points worth flagging:
* `instruction.index(" ")` raises ValueError when the line has no space;
* the loop `for i in range(len(instruction_params)): if isinstance(
  instruction_params[i], int): ...` never fires, because the split always
  yields strings and `isinstance(str, int)` is false — so the raw operand
  tokens are concatenated unconverted;
* categories 3, 7 and 8 hit bare `return` statements (stubs), giving `None`;
* the function only returns a value — it never calls `write_bytes` on
  `instruction_dict`, so the receiver state is unchanged and is not returned
  here;
* a mnemonic missing from `INSTRUCTION_CODES` raises KeyError;
* inside each f-string the params are read left to right, so a short operand
  list raises IndexError in that order. -/
def generate_binary (instruction_dict : RAMROM_dict) (label_lookup : List (String × String))
    (instruction : String) : Except String (Option String) :=
  let EIGHT_ZEROES := "00000000"
  match instruction.data.findIdx? (fun c => c = ' ') with
  | none => .error "ValueError"
  | some space_idx =>
    let command0 : String := String.mk (instruction.data.take space_idx)
    let command : String :=
      match label_regexp_search command0 with
      | some g => String.mk (command0.data.drop g.length)
      | none => command0
    let instruction_params := pySplit ',' (instruction.data.drop (space_idx + 1))
    match pyLookup INSTRUCTION_CODES command with
    | none => .error "KeyError"
    | some opcode =>
      if CAT1.contains command || CAT2.contains command then
        match listIndex instruction_params 2 with
        | .error e => .error e
        | .ok p2 =>
          match listIndex instruction_params 1 with
          | .error e => .error e
          | .ok p1 =>
            match listIndex instruction_params 0 with
            | .error e => .error e
            | .ok p0 => .ok (some (opcode ++ p2 ++ p1 ++ p0))
      else if CAT3.contains command then .ok none
      else if CAT4.contains command then
        match listIndex instruction_params 2 with
        | .error e => .error e
        | .ok p2 =>
          match listIndex instruction_params 0 with
          | .error e => .error e
          | .ok p0 =>
            match listIndex instruction_params 1 with
            | .error e => .error e
            | .ok p1 => .ok (some (opcode ++ p2 ++ p0 ++ p1))
      else if CAT5.contains command || CAT6.contains command then
        match listIndex instruction_params 1 with
        | .error e => .error e
        | .ok p1 =>
          match listIndex instruction_params 0 with
          | .error e => .error e
          | .ok p0 => .ok (some (opcode ++ p1 ++ EIGHT_ZEROES ++ p0))
      else if CAT7.contains command then .ok none
      else if CAT8.contains command then .ok none
      else if CAT9.contains command then
        match convert_8_bit_bin "X30" with
        | .error e => .error e
        | .ok r => .ok (some (opcode ++ r ++ EIGHT_ZEROES ++ EIGHT_ZEROES))
      else .ok none

/-- `ikeaAssemble.generate_memory`: split a data line at its first colon,
encode the value with `convert_1_byte_hex`, write one byte to the RAM image,
and record the returned address under the label.  Returns the updated image
state and lookup table. -/
def generate_memory (memory_dict : RAMROM_dict) (memory_lookup : List (String × String))
    (current_mem_instruction : String) :
    Except String (RAMROM_dict × List (String × String)) :=
  match current_mem_instruction.data.findIdx? (fun c => c = ':') with
  | none => .error "ValueError"
  | some idx_colon =>
    let label : String := String.mk (current_mem_instruction.data.take idx_colon)
    let storage : String := String.mk (current_mem_instruction.data.drop (idx_colon + 1))
    match convert_1_byte_hex storage with
    | .error e => .error e
    | .ok storage_hex =>
      let (md, res) := write_bytes memory_dict storage_hex 1
      match res with
      | .error e => .error e
      | .ok mem_addr => .ok (md, pyDictSet memory_lookup label mem_addr)

/-- The `for current_mem_instruction in memory_data` loop of
`generate_image_files`. -/
def memFold (md : RAMROM_dict) (ml : List (String × String)) :
    List String → Except String (RAMROM_dict × List (String × String))
  | [] => .ok (md, ml)
  | x :: rest =>
    match generate_memory md ml x with
    | .error e => .error e
    | .ok (md2, ml2) => memFold md2 ml2 rest

/-- The `for instruction in instructions: generate_binary(rom, label_lookup,
instruction)` loop of `generate_image_files`: each return value is discarded,
only a raised exception escapes, and `rom` is never modified. -/
def binLoop (rom : RAMROM_dict) (ll : List (String × String)) :
    List String → Except String Unit
  | [] => .ok ()
  | x :: rest =>
    match generate_binary rom ll x with
    | .error e => .error e
    | .ok _ => binLoop rom ll rest

/-- Python list slice `l[a:b]`. -/
def pySliceList (l : List String) (a b : Nat) : List String :=
  (l.take b).drop a

/-- `ikeaAssemble.generate_image_files`, up to the final file rendering (the
serializer writes files and does not change either image).  Returns
`(rom, ram)`: the ROM image state and the RAM image state that the two
`generate_image_file` calls would serialize. -/
def generate_image_files (fileArr : List String) :
    Except String (RAMROM_dict × RAMROM_dict) :=
  match fileArr.findIdx? (fun x => x = ".text"), fileArr.findIdx? (fun x => x = ".data") with
  | some ti, some di =>
    let instructions := pySliceList fileArr (ti + 1) di
    let memory_data := fileArr.drop (di + 1)
    let rom := RAMROM_init
    let ram := RAMROM_init
    match memFold ram [] memory_data with
    | .error e => .error e
    | .ok (ram2, _memory_lookup) =>
      match generate_label_lookup instructions rom with
      | .error e => .error e
      | .ok label_lookup =>
        match binLoop rom label_lookup instructions with
        | .error e => .error e
        | .ok _ => .ok (rom, ram2)
  | _, _ => .error "ValueError"

/-- Iterate `write_bytes` with a fixed word and size `n` times, stopping at
the first raise; returns the final object state together with the outcome of
the last call made. -/
def repWrite (w : String) (bs : Nat) : Nat → RAMROM_dict → RAMROM_dict × Except String String
  | 0, s => (s, .ok "")
  | n + 1, s =>
    match write_bytes s w bs with
    | (s2, .error e) => (s2, .error e)
    | (s2, .ok a) =>
      match n with
      | 0 => (s2, .ok a)
      | m + 1 => repWrite w bs (m + 1) s2

/-- Specification-side decoder: the canonical 8-character binary encoding of a
natural number below 256 (bit 7 first). -/
def bin8 (n : Nat) : String :=
  String.mk ((List.range 8).map (fun i => if n / 2 ^ (7 - i) % 2 = 1 then '1' else '0'))

/-- Specification-side encoder: the two-digit lowercase hex spelling of the
two's-complement byte for `v` (`v + 256` if `v` is negative), written straight
from the spec's words rather than from the code. -/
def twosByteSpec (v : Int) : String :=
  let n := (if v < 0 then v + 256 else v).toNat
  String.mk [natDigit (n / 16 % 16), natDigit (n % 16)]

/-- Specification-side two's-complement reading of a stored hex byte. -/
def decodeTwos (s : String) : Int :=
  let n := hexToNat s
  if 128 ≤ n then (n : Int) - 256 else (n : Int)

/-! ### Arithmetic string lemmas -/

theorem natDigit_isDigit (n : Nat) (h : n < 10) : (natDigit n).isDigit = true := by
  interval_cases n <;> decide

theorem natDigit_toNat (n : Nat) (h : n < 10) : (natDigit n).toNat = 48 + n := by
  interval_cases n <;> decide

theorem digitsCore_fuel (base : Nat) (hb : 2 ≤ base) :
    ∀ (f1 f2 n : Nat), n < f1 → n < f2 → digitsCore base f1 n = digitsCore base f2 n := by
  intro f1
  induction f1 with
  | zero =>
    intro f2 n h1
    omega
  | succ f ih =>
    intro f2 n h1 h2
    cases f2 with
    | zero => omega
    | succ g =>
      by_cases hn : n < base
      · simp [digitsCore, hn]
      · have hdiv : n / base < n := Nat.div_lt_self (by omega) (by omega)
        simp only [digitsCore, if_neg hn]
        rw [ih g (n / base) (by omega) (by omega)]

theorem decChars_eq (n : Nat) :
    decChars n = if n < 10 then [natDigit n] else decChars (n / 10) ++ [natDigit (n % 10)] := by
  have h1 : decChars n =
      if n < 10 then [natDigit n] else digitsCore 10 n (n / 10) ++ [natDigit (n % 10)] := rfl
  by_cases hn : n < 10
  · rw [h1, if_pos hn, if_pos hn]
  · have hdiv : n / 10 < n := Nat.div_lt_self (by omega) (by omega)
    rw [h1, if_neg hn, if_neg hn,
      digitsCore_fuel 10 (by omega) n (n / 10 + 1) (n / 10) (by omega) (by omega)]
    rfl

theorem decChars_ne_nil (n : Nat) : decChars n ≠ [] := by
  rw [decChars_eq]
  split <;> simp

theorem decChars_all_digit (n : Nat) : (decChars n).all Char.isDigit = true := by
  induction n using Nat.strong_induction_on with
  | _ n ih =>
    rw [decChars_eq]
    split
    · rename_i h
      simp [natDigit_isDigit n h]
    · rename_i h
      have h10 : n / 10 < n := Nat.div_lt_self (by omega) (by omega)
      simp [List.all_append, ih (n / 10) h10,
        natDigit_isDigit (n % 10) (Nat.mod_lt n (by omega))]

theorem digitsVal_append_singleton (l : List Char) (c : Char) :
    digitsVal (l ++ [c]) = 10 * digitsVal l + (c.toNat - 48) := by
  simp [digitsVal, List.foldl_append]

theorem digitsVal_decChars (n : Nat) : digitsVal (decChars n) = n := by
  induction n using Nat.strong_induction_on with
  | _ n ih =>
    rw [decChars_eq]
    split
    · rename_i h
      simp only [digitsVal, List.foldl_cons, List.foldl_nil]
      rw [natDigit_toNat n h]
      omega
    · rename_i h
      rw [digitsVal_append_singleton, ih (n / 10) (Nat.div_lt_self (by omega) (by omega)),
        natDigit_toNat (n % 10) (Nat.mod_lt n (by omega))]
      omega

theorem pyInt_pyStrNat (n : Nat) : pyInt? (pyStrNat n) = some (n : Int) := by
  have hall := decChars_all_digit n
  have hval := digitsVal_decChars n
  show pyInt? (String.mk (decChars n)) = some (n : Int)
  cases hd : decChars n with
  | nil => exact absurd hd (decChars_ne_nil n)
  | cons c rest =>
    rw [hd] at hall hval
    have hc : c.isDigit = true := List.all_eq_true.mp hall c (List.mem_cons_self c rest)
    have hcne : c ≠ '-' := by
      intro he
      rw [he] at hc
      exact absurd hc (by decide)
    simp [pyInt?, hcne, hall, hval]

theorem stripX_pyStrNat (n : Nat) : stripX (pyStrNat n) = pyStrNat n := by
  unfold stripX pyStrNat
  congr 1
  apply List.filter_eq_self.mpr
  intro c hc
  have hdig := List.all_eq_true.mp (decChars_all_digit n) c hc
  have hne : c ≠ 'X' := by
    intro he
    rw [he] at hdig
    exact absurd hdig (by decide)
  exact decide_eq_true hne

theorem convert_8_bit_bin_pyStrNat (n : Nat) :
    convert_8_bit_bin (pyStrNat n) = .ok (pyFormatB 8 (n : Int)) := by
  unfold convert_8_bit_bin
  rw [stripX_pyStrNat, pyInt_pyStrNat]
  have hn : ¬ ((n : Int) < 0) := Int.not_lt.mpr (Int.natCast_nonneg n)
  simp [hn]

theorem convert_nibble_hex_pyStrNat (n : Nat) (h : n < 16) :
    convert_nibble_hex (pyStrNat n) = .ok (String.mk (hexChars n)) := by
  unfold convert_nibble_hex
  rw [stripX_pyStrNat, pyInt_pyStrNat]
  have hn : ((n : Int) < 16 ∧ 0 ≤ (n : Int)) := ⟨by exact_mod_cast h, Int.natCast_nonneg n⟩
  simp [hn]

theorem mem_addr_preview_ok (s : RAMROM_dict) (i : Nat) :
    mem_addr_preview s i = .ok (pyFormatB 8 ((i * 8 : Nat) : Int)) := by
  unfold mem_addr_preview
  exact convert_8_bit_bin_pyStrNat (i * 8)

/-! ### Dictionary lemmas -/

theorem pyLookup_pyDictSet_self (d : List (String × String)) (k v : String) :
    pyLookup (pyDictSet d k v) k = some v := by
  induction d with
  | nil => simp [pyDictSet, pyLookup]
  | cons p rest ih =>
    by_cases h : p.1 = k
    · simp [pyDictSet, pyLookup, h]
    · simp [pyDictSet, pyLookup, h, ih]

theorem pyLookup_pyDictSet_ne (d : List (String × String)) (k v g : String) (h : k ≠ g) :
    pyLookup (pyDictSet d k v) g = pyLookup d g := by
  induction d with
  | nil => simp [pyDictSet, pyLookup, h]
  | cons p rest ih =>
    by_cases hp : p.1 = k
    · subst hp
      simp [pyDictSet, pyLookup, h]
    · by_cases hg : p.1 = g
      · simp [pyDictSet, pyLookup, hp, hg, Ne.symm h]
      · simp [pyDictSet, pyLookup, hp, hg, ih]

/-! ### Label prescanner lemmas -/

theorem gll_aux_ok (rom : RAMROM_dict) (l : List String) :
    ∀ (n : Nat) (acc : List (String × String)),
      ∃ d, generate_label_lookup_aux rom l n acc = .ok d := by
  induction l with
  | nil => intro n acc; exact ⟨acc, rfl⟩
  | cons x rest ih =>
    intro n acc
    cases hm : label_regexp_search x with
    | none => simpa [generate_label_lookup_aux, hm] using ih (n + 1) acc
    | some g =>
      rw [generate_label_lookup_aux, hm, mem_addr_preview_ok]
      exact ih (n + 1) _

theorem gll_aux_preserve (rom : RAMROM_dict) (l : List String) (g : String) :
    ∀ (n : Nat) (acc d : List (String × String)),
      (∀ j, j < l.length → label_regexp_search (l.getD j "") ≠ some g) →
      generate_label_lookup_aux rom l n acc = .ok d →
      pyLookup d g = pyLookup acc g := by
  induction l with
  | nil =>
    intro n acc d _ h
    simp [generate_label_lookup_aux] at h
    rw [h]
  | cons x rest ih =>
    intro n acc d hno h
    have h0 : label_regexp_search x ≠ some g := by
      simpa using hno 0 (by simp)
    have hrest : ∀ j, j < rest.length → label_regexp_search (rest.getD j "") ≠ some g := by
      intro j hj
      simpa using hno (j + 1) (by simpa using hj)
    cases hm : label_regexp_search x with
    | none =>
      rw [generate_label_lookup_aux, hm] at h
      exact ih (n + 1) acc d hrest h
    | some gp =>
      have hgp : gp ≠ g := by
        intro he
        exact h0 (by rw [hm, he])
      rw [generate_label_lookup_aux, hm, mem_addr_preview_ok] at h
      rw [ih (n + 1) _ d hrest h, pyLookup_pyDictSet_ne _ _ _ _ hgp]

theorem gll_aux_lookup (rom : RAMROM_dict) (l : List String) :
    ∀ (n : Nat) (acc : List (String × String)) (i : Nat) (g : String)
      (d : List (String × String)),
      i < l.length →
      label_regexp_search (l.getD i "") = some g →
      (∀ j, i < j → j < l.length → label_regexp_search (l.getD j "") ≠ some g) →
      generate_label_lookup_aux rom l n acc = .ok d →
      pyLookup d g = some (pyFormatB 8 (((n + i) * 8 : Nat) : Int)) := by
  induction l with
  | nil =>
    intro n acc i g d hi
    exact absurd hi (by simp)
  | cons x rest ih =>
    intro n acc i g d hi hmatch hno h
    cases i with
    | zero =>
      simp only [List.getD_cons_zero] at hmatch
      rw [generate_label_lookup_aux, hmatch, mem_addr_preview_ok] at h
      have hrest : ∀ j, j < rest.length → label_regexp_search (rest.getD j "") ≠ some g := by
        intro j hj
        simpa using hno (j + 1) (by omega) (by simpa using hj)
      rw [gll_aux_preserve rom rest g (n + 1) _ d hrest h, pyLookup_pyDictSet_self]
      simp
    | succ ip =>
      simp only [List.getD_cons_succ] at hmatch
      have hno2 : ∀ j, ip < j → j < rest.length →
          label_regexp_search (rest.getD j "") ≠ some g := by
        intro j h1 h2
        simpa using hno (j + 1) (by omega) (by simpa using h2)
      have harith : n + 1 + ip = n + (ip + 1) := by omega
      cases hm : label_regexp_search x with
      | none =>
        rw [generate_label_lookup_aux, hm] at h
        have := ih (n + 1) acc ip g d (by simpa using hi) hmatch hno2 h
        rwa [harith] at this
      | some gp =>
        rw [generate_label_lookup_aux, hm, mem_addr_preview_ok] at h
        have := ih (n + 1) _ ip g d (by simpa using hi) hmatch hno2 h
        rwa [harith] at this

/-! ### Memory image lemmas -/

theorem writeCellsDesc_ok (to_write : String) :
    ∀ (k : Nat) (row : List String) (idx : Nat),
      idx + k ≤ row.length →
      ∃ row2, writeCellsDesc to_write idx row k = .ok row2 ∧ row2.length = row.length := by
  intro k
  induction k with
  | zero =>
    intro row idx _
    exact ⟨row, rfl, rfl⟩
  | succ kp ih =>
    intro row idx h
    have hlt : idx + kp < row.length := by omega
    obtain ⟨row2, heq, hlen⟩ :=
      ih (row.set (idx + kp) (pySliceStr to_write (2 * kp) (2 * kp + 2))) idx
        (by rw [List.length_set]; omega)
    refine ⟨row2, ?_, ?_⟩
    · simp only [writeCellsDesc, setCell, if_pos hlt]
      exact heq
    · rw [hlen, List.length_set]

theorem RAMROM_keys_findIdx (k : String) (hk : k ∈ RAMROM_keys) (hne : k ≠ "f0") :
    ∃ i, RAMROM_keys.findIdx? (fun x => x = k) = some i ∧ i + 1 < RAMROM_keys.length := by
  fin_cases hk
  · exact ⟨0, by decide, by decide⟩
  · exact ⟨1, by decide, by decide⟩
  · exact ⟨2, by decide, by decide⟩
  · exact ⟨3, by decide, by decide⟩
  · exact ⟨4, by decide, by decide⟩
  · exact ⟨5, by decide, by decide⟩
  · exact ⟨6, by decide, by decide⟩
  · exact ⟨7, by decide, by decide⟩
  · exact ⟨8, by decide, by decide⟩
  · exact ⟨9, by decide, by decide⟩
  · exact ⟨10, by decide, by decide⟩
  · exact ⟨11, by decide, by decide⟩
  · exact ⟨12, by decide, by decide⟩
  · exact ⟨13, by decide, by decide⟩
  · exact ⟨14, by decide, by decide⟩
  · exact absurd rfl hne

theorem update_current_loc_ok (s : RAMROM_dict) (bs : Nat)
    (hkey : s.current_loc.1 ∈ RAMROM_keys)
    (hloc : s.current_loc ≠ ("f0", 16 - bs)) :
    ∃ s2, update_current_loc s bs = Except.ok s2 := by
  simp only [update_current_loc, if_neg hloc]
  by_cases hi : s.current_loc.2 ≠ 16 - bs
  · rw [if_pos hi]
    exact ⟨_, rfl⟩
  · push_neg at hi
    rw [if_neg (by omega)]
    have hkne : s.current_loc.1 ≠ "f0" := by
      intro he
      apply hloc
      have : s.current_loc = (s.current_loc.1, s.current_loc.2) := rfl
      rw [this, he, hi]
    obtain ⟨j, hfind, hlt⟩ := RAMROM_keys_findIdx s.current_loc.1 hkey hkne
    rw [hfind]
    exact ⟨_, dif_pos hlt⟩

theorem write_bytes_parts (s : RAMROM_dict) (w : String) (bs : Nat)
    (hbs1 : 1 ≤ bs) (hw : w.length = bs * 2)
    (hrow : (dictGet s.image_file s.current_loc.1).length = 16)
    (hidx : s.current_loc.2 + bs ≤ 16) :
    ∃ row2,
      writeCellsDesc w s.current_loc.2 (dictGet s.image_file s.current_loc.1) bs =
        Except.ok row2 ∧
      ((update_current_loc { s with image_file := dictSet s.image_file s.current_loc.1 row2 } bs =
          Except.error "MemoryError" →
        write_bytes s w bs =
          ({ s with image_file := dictSet s.image_file s.current_loc.1 row2 },
           Except.error "MemoryError")) ∧
       (∀ s3,
        update_current_loc { s with image_file := dictSet s.image_file s.current_loc.1 row2 } bs =
          Except.ok s3 →
        ∃ a, write_bytes s w bs = (s3, Except.ok a))) := by
  obtain ⟨row2, hcells, _⟩ :=
    writeCellsDesc_ok w bs (dictGet s.image_file s.current_loc.1) s.current_loc.2
      (by omega)
  have hcond : ¬ (w.length ≠ bs * 2) := fun hne => hne hw
  refine ⟨row2, hcells, ?_, ?_⟩
  · intro herr
    simp only [write_bytes, hcells,
      convert_nibble_hex_pyStrNat s.current_loc.2 (by omega), herr, if_neg hcond]
  · intro s3 hok
    refine ⟨pyFormatB 8 (hexToNat (String.mk (s.current_loc.1.data.take 1 ++ hexChars s.current_loc.2))), ?_⟩
    simp only [write_bytes, hcells,
      convert_nibble_hex_pyStrNat s.current_loc.2 (by omega), hok, if_neg hcond]

/-! ### Bounded evaluation lemmas -/

theorem c8_ball : ∀ k, k < 32 →
    convert_8_bit_bin (pyStrNat (k * 8)) = .ok (bin8 (8 * k)) := by decide

theorem c3_ball : ∀ m, m < 128 →
    generate_memory RAMROM_init [] ("foo:" ++ pyStrNat (m + 128)) =
      .ok ({ image_file := dictSet RAMROM_init.image_file "00"
               (String.mk [natDigit ((m + 128) / 16), natDigit ((m + 128) % 16)] ::
                 List.replicate 15 "00"),
             current_loc := ("00", 1) }, [("foo", "00000000")]) := by decide

theorem c9_ball : ∀ (n : Nat), n < 256 →
    (generate_memory RAMROM_init [] ("foo:" ++ pyStrInt ((n : Int) - 128)) =
      .ok ({ image_file := dictSet RAMROM_init.image_file "00"
               (twosByteSpec ((n : Int) - 128) :: List.replicate 15 "00"),
             current_loc := ("00", 1) }, [("foo", "00000000")]) ∧
     decodeTwos (twosByteSpec ((n : Int) - 128)) = (n : Int) - 128 ∧
     convert_1_byte_hex "-1" = Except.ok "ff") := by decide

/-! ### Claim theorems -/

/-- **C1** (code bug): the claim says every text-segment instruction is
encoded and written into the ROM image via an 8-byte write, so that for
`.text / ADD X1,X2,X3 / .data / foo:5` ROM row `00` starts with the ADD
encoding.  In the code, `generate_image_files` discards the return value of
`generate_binary` and nothing ever calls `write_bytes` on the ROM object
(contradicting the docstring of `generate_binary`, which says it writes to
ROM): on that very input the run succeeds, the RAM image gets `05` at cell 0,
and the ROM image is returned exactly in its all-zero initial state. -/
theorem C1_rom_image_never_written :
    generate_image_files [".text", "ADD X1,X2,X3", ".data", "foo:5"] =
      Except.ok (RAMROM_init,
        { image_file := dictSet RAMROM_init.image_file "00" ("05" :: List.replicate 15 "00"),
          current_loc := ("00", 1) }) ∧
    dictGet RAMROM_init.image_file "00" = List.replicate 16 "00" := by decide

/-- **C2** (code bug): the claim says every emitted word has one constant
length with operands encoded as 8-bit fields.  In the code the conversion
loop guards on `isinstance(instruction_params[i], int)`, which is always
false for the string tokens produced by `split`, so the raw operand tokens
are concatenated: `ADD X1,X2,X3` yields a 46-character word ending in the
literal text `X3X2X1`, while `ADD X11,X2,X3` yields 47 characters. -/
theorem C2_encoded_words_variable_width :
    generate_binary RAMROM_init [] "ADD X1,X2,X3" =
      Except.ok (some ("0000100000000000100000001000000000000000" ++ "X3" ++ "X2" ++ "X1")) ∧
    (generate_binary RAMROM_init [] "ADD X1,X2,X3").map (Option.map String.length) =
      Except.ok (some 46) ∧
    (generate_binary RAMROM_init [] "ADD X11,X2,X3").map (Option.map String.length) =
      Except.ok (some 47) := by decide

/-- **C3** (counterexample): the claim says a data value outside
`[-128, 127]`, such as `200`, fails with a RangeError and is not silently
encoded.  Running `generate_memory` on the declaration `foo:200` from a fresh
RAM image succeeds with no error of any kind and stores the byte `c8` at
cell 0. -/
theorem C3_counterexample_200_silently_encoded :
    generate_memory RAMROM_init [] "foo:200" =
      Except.ok ({ image_file := dictSet RAMROM_init.image_file "00"
                     ("c8" :: List.replicate 15 "00"),
                   current_loc := ("00", 1) }, [("foo", "00000000")]) := by decide

/-- **C3** (amended): the code performs no range check at all on data values.
Every value `n` in `[128, 255]` — `200` included — is silently accepted: the
declaration `foo:n` encodes the unsigned byte `n` as two lowercase hex digits
into RAM cell 0 and records the label, raising nothing. -/
theorem C3_amended_no_range_check (n : Nat) (h1 : 128 ≤ n) (h2 : n < 256) :
    generate_memory RAMROM_init [] ("foo:" ++ pyStrNat n) =
      Except.ok ({ image_file := dictSet RAMROM_init.image_file "00"
                     (String.mk [natDigit (n / 16), natDigit (n % 16)] ::
                       List.replicate 15 "00"),
                   current_loc := ("00", 1) }, [("foo", "00000000")]) := by
  have hb := c3_ball (n - 128) (by omega)
  have he : n - 128 + 128 = n := by omega
  rw [he] at hb
  exact hb

/-- Witness for `C3_amended_no_range_check` at the claim's own example 200. -/
theorem C3_amended_no_range_check_witness :
    generate_memory RAMROM_init [] ("foo:" ++ pyStrNat 200) =
      Except.ok ({ image_file := dictSet RAMROM_init.image_file "00"
                     (String.mk [natDigit (200 / 16), natDigit (200 % 16)] ::
                       List.replicate 15 "00"),
                   current_loc := ("00", 1) }, [("foo", "00000000")]) :=
  C3_amended_no_range_check 200 (by decide) (by decide)

/-- **C4** (code bug): the claim says label operands of categories 3, 7 and 8
are resolved against the two label tables and an unknown name fails with an
UndefinedLabelError aborting the assembly.  In the code all three category
branches are bare `return` stubs (`# Implement after the data image is
handled`): no table is ever consulted, an undefined label raises nothing, and
encoding "succeeds" with `None` whether or not the label exists. -/
theorem C4_label_resolution_stubbed :
    generate_binary RAMROM_init [] "BRANCH nowhere" = Except.ok none ∧
    generate_binary RAMROM_init [("nowhere:", "00000000")] "BRANCH nowhere" = Except.ok none ∧
    generate_binary RAMROM_init [] "ADDRESS X1,nowhere" = Except.ok none ∧
    generate_binary RAMROM_init [] "BRANCH_IF_ZERO X1,nowhere" = Except.ok none := by decide

/-- **C5** (counterexample): the claim says the capacity check precedes any
mutation and that 32 eight-byte writes totalling exactly 256 bytes succeed.
In fact the 31 first writes succeed, and the 32nd — which fits exactly —
stores its bytes into row `f0` and only then raises MemoryError from the
cursor-advance step, leaving the image mutated. -/
theorem C5_counterexample_32nd_write :
    (repWrite "0123456789abcdef" 8 31 RAMROM_init).2 = Except.ok "11110000" ∧
    (repWrite "0123456789abcdef" 8 32 RAMROM_init).2 = Except.error "MemoryError" ∧
    dictGet (repWrite "0123456789abcdef" 8 32 RAMROM_init).1.image_file "f0" ≠
      dictGet (repWrite "0123456789abcdef" 8 31 RAMROM_init).1.image_file "f0" ∧
    (repWrite "0123456789abcdef" 8 32 RAMROM_init).1.current_loc = ("f0", 8) := by decide

/-- **C5** (amended): for an in-bounds cursor and a well-formed word, a write
raises MemoryError exactly when the cursor sits at `("f0", 16 - size)`, i.e.
when the write would exactly fill the final bytes of the 256-byte space —
a write that fits.  The check runs in the cursor-advance step after the byte
cells were already stored: on the raising write the returned object state
carries the freshly written row while the cursor is unchanged, so the
operation is not atomic and a 256-byte total errors on its last write. -/
theorem C5_amended_memory_error_after_mutation (s : RAMROM_dict) (to_write : String)
    (byte_size : Nat)
    (hbs : byte_size = 1 ∨ byte_size = 2 ∨ byte_size = 4 ∨ byte_size = 8 ∨ byte_size = 16)
    (hw : to_write.length = byte_size * 2)
    (hrow : (dictGet s.image_file s.current_loc.1).length = 16)
    (hidx : s.current_loc.2 + byte_size ≤ 16)
    (hkey : s.current_loc.1 ∈ RAMROM_keys) :
    ((write_bytes s to_write byte_size).2 = Except.error "MemoryError" ↔
      s.current_loc = ("f0", 16 - byte_size)) ∧
    (s.current_loc = ("f0", 16 - byte_size) →
      (write_bytes s to_write byte_size).1.current_loc = s.current_loc ∧
      ∃ row2,
        writeCellsDesc to_write s.current_loc.2 (dictGet s.image_file s.current_loc.1)
            byte_size = Except.ok row2 ∧
        (write_bytes s to_write byte_size).1.image_file =
          dictSet s.image_file s.current_loc.1 row2) := by
  have hbs1 : 1 ≤ byte_size := by rcases hbs with h | h | h | h | h <;> omega
  obtain ⟨row2, hcells, hparterr, hpartok⟩ :=
    write_bytes_parts s to_write byte_size hbs1 hw hrow hidx
  by_cases hloc : s.current_loc = ("f0", 16 - byte_size)
  · have herr : update_current_loc
        { s with image_file := dictSet s.image_file s.current_loc.1 row2 } byte_size =
        Except.error "MemoryError" := by
      simp only [update_current_loc, if_pos hloc]
    have hwb := hparterr herr
    refine ⟨⟨fun _ => hloc, fun _ => ?_⟩, fun _ => ?_⟩
    · rw [hwb]
    · rw [hwb]
      exact ⟨rfl, row2, hcells, rfl⟩
  · obtain ⟨s3, hok⟩ := update_current_loc_ok
      { s with image_file := dictSet s.image_file s.current_loc.1 row2 } byte_size hkey hloc
    obtain ⟨a, hwb⟩ := hpartok s3 hok
    refine ⟨⟨fun h2 => ?_, fun h2 => absurd h2 hloc⟩, fun h2 => absurd h2 hloc⟩
    rw [hwb] at h2
    exact absurd h2 (by simp)

/-- Witness for `C5_amended_memory_error_after_mutation`: the cursor state
reached after 31 eight-byte writes, where the 32nd write raises after
mutating. -/
theorem C5_amended_memory_error_after_mutation_witness :
    ((write_bytes { RAMROM_init with current_loc := ("f0", 8) } "0123456789abcdef" 8).2 =
        Except.error "MemoryError" ↔
      ({ RAMROM_init with current_loc := ("f0", 8) } : RAMROM_dict).current_loc =
        ("f0", 16 - 8)) ∧
    (({ RAMROM_init with current_loc := ("f0", 8) } : RAMROM_dict).current_loc =
        ("f0", 16 - 8) →
      (write_bytes { RAMROM_init with current_loc := ("f0", 8) } "0123456789abcdef" 8).1.current_loc =
        ({ RAMROM_init with current_loc := ("f0", 8) } : RAMROM_dict).current_loc ∧
      ∃ row2,
        writeCellsDesc "0123456789abcdef"
            ({ RAMROM_init with current_loc := ("f0", 8) } : RAMROM_dict).current_loc.2
            (dictGet ({ RAMROM_init with current_loc := ("f0", 8) } : RAMROM_dict).image_file
              ({ RAMROM_init with current_loc := ("f0", 8) } : RAMROM_dict).current_loc.1)
            8 = Except.ok row2 ∧
        (write_bytes { RAMROM_init with current_loc := ("f0", 8) } "0123456789abcdef" 8).1.image_file =
          dictSet ({ RAMROM_init with current_loc := ("f0", 8) } : RAMROM_dict).image_file
            ({ RAMROM_init with current_loc := ("f0", 8) } : RAMROM_dict).current_loc.1 row2) :=
  C5_amended_memory_error_after_mutation { RAMROM_init with current_loc := ("f0", 8) }
    "0123456789abcdef" 8 (by decide) (by decide) (by decide) (by decide) (by decide)

/-- **C6** (code bug): the claim (and the docstring of `write_bytes`) says a
multi-byte write places the least-significant byte at the lowest address.
The loop stores the `i`-th hexadecimal character pair of the word at cell
offset `i`, and every multi-byte hex producer in the program
(`convert_8_byte_hex`, shown here on the value 1) renders most-significant
first — so the LSB `01` of `0x0000000000000001` lands at offset 7, the
highest written address, while the cursor-advance and returned first-byte
address behave as claimed. -/
theorem C6_lsb_at_highest_address :
    convert_8_byte_hex "1" = Except.ok "0000000000000001" ∧
    (write_bytes RAMROM_init "0000000000000001" 8).2 = Except.ok "00000000" ∧
    dictGet (write_bytes RAMROM_init "0000000000000001" 8).1.image_file "00" =
      ["00", "00", "00", "00", "00", "00", "00", "01",
       "00", "00", "00", "00", "00", "00", "00", "00"] ∧
    (write_bytes RAMROM_init "0000000000000001" 8).1.current_loc = ("00", 8) := by decide

/-- **C7** (counterexample): for the claimed scenario
`.text / BRANCH end / ADD X1,X2,X3 / end: RETURN / .data` the prescanner
records the label marker at the zero-based line index 2, whose predicted
address is 2 × 8 = 16 = `00010000` — not the `00001000` (= 8) stated by the
claim. -/
theorem C7_counterexample_end_address :
    generate_label_lookup ["BRANCH end", "ADD X1,X2,X3", "end:RETURN"] RAMROM_init =
      Except.ok [("end:", "00010000")] ∧
    "00010000" ≠ "00001000" := by decide

/-- **C7** (amended): the prescanner records, for every line at zero-based
position `i` among all text-segment entries whose head matches `^\w+:`, the
predicted address `i * 8` in 8-bit binary under the matched `name:` group
(provided no later line repeats the same marker, in which case the later one
wins); in the scenario above `end:` maps to `00010000` (ordinal 2 × 8 = 16). -/
theorem C7_amended_prescan_records_ordinal_times_eight :
    (∀ (instructions : List String) (rom : RAMROM_dict) (i : Nat) (g : String)
        (d : List (String × String)),
        i < instructions.length →
        label_regexp_search (instructions.getD i "") = some g →
        (∀ j, i < j → j < instructions.length →
          label_regexp_search (instructions.getD j "") ≠ some g) →
        generate_label_lookup instructions rom = Except.ok d →
        pyLookup d g = some (pyFormatB 8 ((i * 8 : Nat) : Int))) ∧
    generate_label_lookup ["BRANCH end", "ADD X1,X2,X3", "end:RETURN"] RAMROM_init =
      Except.ok [("end:", "00010000")] := by
  constructor
  · intro ins rom i g d hi hm hno h
    have hmain := gll_aux_lookup rom ins 0 [] i g d hi hm hno h
    simpa using hmain
  · decide

/-- Witness for `C7_amended_prescan_records_ordinal_times_eight` at the
claim's scenario. -/
theorem C7_amended_prescan_witness :
    pyLookup [("end:", "00010000")] "end:" = some (pyFormatB 8 ((2 * 8 : Nat) : Int)) :=
  C7_amended_prescan_records_ordinal_times_eight.1
    ["BRANCH end", "ADD X1,X2,X3", "end:RETURN"] RAMROM_init 2 "end:"
    [("end:", "00010000")] (by decide) (by decide)
    (by intro j h1 h2; simp only [List.length_cons, List.length_nil] at h2; omega) (by decide)

/-- **C8** (confirmed): with at most 32 instructions the valid zero-based
ordinals are `k < 32`, and for every such `k` and every image state
`mem_addr_preview` returns `8k` rendered as an 8-character binary string
(`bin8` is the specification-side encoding); the result never reads the
image, so the prediction is available before anything is written. -/
theorem C8_predict_address_eight_k (s : RAMROM_dict) (k : Nat) (hk : k < 32) :
    mem_addr_preview s k = Except.ok (bin8 (8 * k)) ∧
    mem_addr_preview s k = mem_addr_preview RAMROM_init k :=
  ⟨c8_ball k hk, rfl⟩

/-- Witness for `C8_predict_address_eight_k` at ordinal 3. -/
theorem C8_predict_address_eight_k_witness :
    mem_addr_preview RAMROM_init 3 = Except.ok (bin8 (8 * 3)) ∧
    mem_addr_preview RAMROM_init 3 = mem_addr_preview RAMROM_init 3 :=
  C8_predict_address_eight_k RAMROM_init 3 (by decide)

/-- **C9** (confirmed): for every data value `v` in `[-128, 127]` the byte
stored at RAM cell 0 by `generate_memory` is the two's-complement encoding of
`v` (`v + 256` if negative, two lowercase hex digits — `twosByteSpec` is the
specification-side encoder), the specification-side two's-complement decoder
recovers `v` exactly, and `-1` encodes to the hex byte `ff`. -/
theorem C9_twos_complement_roundtrip (v : Int) (h1 : -128 ≤ v) (h2 : v ≤ 127) :
    generate_memory RAMROM_init [] ("foo:" ++ pyStrInt v) =
      Except.ok ({ image_file := dictSet RAMROM_init.image_file "00"
                     (twosByteSpec v :: List.replicate 15 "00"),
                   current_loc := ("00", 1) }, [("foo", "00000000")]) ∧
    decodeTwos (twosByteSpec v) = v ∧
    convert_1_byte_hex "-1" = Except.ok "ff" := by
  have hb := c9_ball (v + 128).toNat (by omega)
  have he : ((v + 128).toNat : Int) - 128 = v := by omega
  rw [he] at hb
  exact hb

/-- Witness for `C9_twos_complement_roundtrip` at the claim's example `-1`. -/
theorem C9_twos_complement_roundtrip_witness :
    generate_memory RAMROM_init [] ("foo:" ++ pyStrInt (-1)) =
      Except.ok ({ image_file := dictSet RAMROM_init.image_file "00"
                     (twosByteSpec (-1) :: List.replicate 15 "00"),
                   current_loc := ("00", 1) }, [("foo", "00000000")]) ∧
    decodeTwos (twosByteSpec (-1)) = -1 ∧
    convert_1_byte_hex "-1" = Except.ok "ff" :=
  C9_twos_complement_roundtrip (-1) (by decide) (by decide)

/-- **C10** (confirmed): fifteen 1-byte writes through the public interface
leave the cursor at `("00", 15)`; an 8-byte write from there is not caught by
the capacity check (which only fires at `("f0", 8)`) and its first loop
iteration targets cell offset 15 + 7 = 22 ≥ 16, outside the row's sixteen
cells — in this embedding the out-of-range cell assignment surfaces as the
IndexError that CPython would raise, so the row indexing of `write_bytes` is
not in-bounds for all reachable cursor states. -/
theorem C10_write_overruns_row :
    (repWrite "ab" 1 15 RAMROM_init).2 = Except.ok "00001110" ∧
    (repWrite "ab" 1 15 RAMROM_init).1.current_loc = ("00", 15) ∧
    (repWrite "ab" 1 15 RAMROM_init).1.current_loc ≠ ("f0", 16 - 8) ∧
    16 ≤ (repWrite "ab" 1 15 RAMROM_init).1.current_loc.2 + 8 - 1 ∧
    (write_bytes (repWrite "ab" 1 15 RAMROM_init).1 "0123456789abcdef" 8).2 =
      Except.error "IndexError" ∧
    (write_bytes (repWrite "ab" 1 15 RAMROM_init).1 "0123456789abcdef" 8).1 =
      (repWrite "ab" 1 15 RAMROM_init).1 := by decide
